import Mathlib

/-!
Verification of `scripts/extract-pins.py` (certificate pin extractor).

The script shells out, per domain, to an openssl pipeline, turns its output
into a pin string `"sha256/<base64>"`, and prints a report, a Kotlin code
template, static notes and a final warning, exiting 1 when any extraction
failed.

Shallow embedding: the behavior of the external subprocess invocation is a
parameter (`ToolOutcome`, one value per domain via an `oracle` function);
`extract_pin` and `main` are pure functions from that behavior to the pin
result, the printed lines and the process exit code.  Python's ordered
`dict` is embedded as an association list with insert-or-update semantics.
-/

namespace ExtractPins

/-- ANSI color code `'\033[0;31m'` from the script. -/
def RED : String := "\x1b[0;31m"

/-- ANSI color code `'\033[0;32m'` from the script. -/
def GREEN : String := "\x1b[0;32m"

/-- ANSI color code `'\033[1;33m'` from the script. -/
def YELLOW : String := "\x1b[1;33m"

/-- ANSI color code `'\033[0;34m'` from the script (unused by it, kept for fidelity). -/
def BLUE : String := "\x1b[0;34m"

/-- ANSI reset code `'\033[0m'`. -/
def NC : String := "\x1b[0m"

/-- The failure sentinel string recorded by `main` when extraction fails. -/
def SENTINEL : String := "FAILED_TO_EXTRACT"

/-- The fixed `PROVIDERS` list of (domain, label) pairs from the script. -/
def PROVIDERS : List (String × String) :=
  [("api.deepgram.com", "Deepgram (STT + TTS)"),
   ("api.assemblyai.com", "AssemblyAI (STT)"),
   ("api.groq.com", "Groq (STT)"),
   ("api.elevenlabs.io", "ElevenLabs (TTS)"),
   ("api.openai.com", "OpenAI (LLM)"),
   ("api.anthropic.com", "Anthropic (LLM)")]

/-- Outcome of the `subprocess.run` invocation of the openssl pipeline for one
domain: it either completed (with an exit status and captured stdout), raised
`subprocess.TimeoutExpired`, or raised some other exception with a message. -/
inductive ToolOutcome where
  | completed (returncode : Int) (stdout : String)
  | timedOut
  | raised (msg : String)
deriving DecidableEq

/-- The ASCII whitespace characters removed by Python's `str.strip()`
(space, tab, newline, carriage return, vertical tab, form feed). -/
def isPyWhitespace (c : Char) : Bool :=
  c = ' ' || c = '\t' || c = '\n' || c = '\r' || c = '\x0b' || c = '\x0c'

/-- Python's `str.strip()`: remove leading and trailing whitespace. -/
def pyStrip (s : String) : String :=
  ⟨((s.data.dropWhile isPyWhitespace).reverse.dropWhile isPyWhitespace).reverse⟩

/-- Result of one call to `extract_pin`: the returned `Optional[str]` and the
lines it printed to stdout. -/
structure ExtractResult where
  pin : Option String
  printed : List String
deriving DecidableEq

/-- `extract_pin(domain)` from the script, with the subprocess behavior made
explicit.  On `returncode == 0 and stdout.strip()` it returns
`"sha256/" + stdout.strip()`; on a completed run otherwise it returns `None`
silently; a `TimeoutExpired` or any other exception is caught, a diagnostic
is printed, and `None` is returned (the embedding is a total function, so no
exception escapes this boundary). -/
def extract_pin (domain : String) (outcome : ToolOutcome) : ExtractResult :=
  match outcome with
  | .completed rc out =>
      if rc = 0 ∧ pyStrip out ≠ "" then
        { pin := some ("sha256/" ++ pyStrip out), printed := [] }
      else
        { pin := none, printed := [] }
  | .timedOut =>
      { pin := none,
        printed := [RED ++ "  ✗ Timeout connecting to " ++ domain ++ NC] }
  | .raised e =>
      { pin := none, printed := [RED ++ "  ✗ Error: " ++ e ++ NC] }

/-- Membership test of a key in the embedded Python dict (`k in d`). -/
def dictHasKey (d : List (String × String)) (k : String) : Bool :=
  d.any (fun p => p.1 == k)

/-- Python dict assignment `d[k] = v`: update in place when the key is
present, append otherwise (Python dicts preserve insertion order). -/
def dictInsert (d : List (String × String)) (k v : String) :
    List (String × String) :=
  if dictHasKey d k then d.map (fun p => if p.1 == k then (k, v) else p)
  else d ++ [(k, v)]

/-- Python `d.get(k, dflt)`. -/
def dictGet (d : List (String × String)) (k dflt : String) : String :=
  match d.find? (fun p => p.1 == k) with
  | some p => p.2
  | none => dflt

/-- Python `d.keys()` (in insertion order). -/
def dictKeys (d : List (String × String)) : List String :=
  d.map Prod.fst

/-- One iteration of the extraction loop in `main`: print the starting
message, call `extract_pin`, print the success or failure line, and record
the pin or the sentinel in the dict.  Returns the updated dict and the lines
printed by this iteration. -/
def extractionStep (oracle : String → ToolOutcome)
    (pins : List (String × String)) (prov : String × String) :
    List (String × String) × List String :=
  let domain := prov.1
  let startLine :=
    YELLOW ++ "Extracting pin for " ++ prov.2 ++ " (" ++ domain ++ ")..." ++ NC
  let r := extract_pin domain (oracle domain)
  match r.pin with
  | some pin =>
      (dictInsert pins domain pin,
       [startLine] ++ r.printed ++ [GREEN ++ "  ✓ Pin: " ++ pin ++ NC, ""])
  | none =>
      (dictInsert pins domain SENTINEL,
       [startLine] ++ r.printed ++
         [RED ++ "  ✗ Failed to extract pin" ++ NC, ""])

/-- Fold step accumulating the dict and all printed lines over the provider
list. -/
def extractionAcc (oracle : String → ToolOutcome)
    (acc : List (String × String) × List String) (prov : String × String) :
    List (String × String) × List String :=
  let r := extractionStep oracle acc.1 prov
  (r.1, acc.2 ++ r.2)

/-- The extraction phase of `main`: the loop over `PROVIDERS`, starting from
the empty dict.  Returns the results dict and the printed lines. -/
def extractionPhase (oracle : String → ToolOutcome) :
    List (String × String) × List String :=
  PROVIDERS.foldl (extractionAcc oracle) ([], [])

/-- The pin value `main` records for a domain: the extracted pin on success,
the sentinel on failure. -/
def recordedPin (oracle : String → ToolOutcome) (domain : String) : String :=
  match (extract_pin domain (oracle domain)).pin with
  | some pin => pin
  | none => SENTINEL

/-- A row of "=" repeated 50 times (`"=" * 50`). -/
def eqBar : String := String.mk (List.replicate 50 '=')

/-- The summary phase: one status line per recorded entry. -/
def summaryLines (pins : List (String × String)) : List String :=
  pins.map (fun p =>
    let status :=
      if p.2 ≠ SENTINEL then GREEN ++ "✓" ++ NC else RED ++ "✗" ++ NC
    status ++ " " ++ p.1 ++ ": " ++ p.2)

/-- The `provider_comments` dict literal from `main`. -/
def provider_comments : List (String × String) :=
  [("api.deepgram.com", "Deepgram (STT + TTS)"),
   ("api.assemblyai.com", "AssemblyAI (STT)"),
   ("api.groq.com", "Groq (STT)"),
   ("api.elevenlabs.io", "ElevenLabs (TTS)"),
   ("api.openai.com", "OpenAI (LLM)"),
   ("api.anthropic.com", "Anthropic (LLM)")]

/-- The template loop of `main`: for each key of the results dict, print a
comment line, the `.add(domain, pin)` line, the backup-pin placeholder line
and a blank line.  Looking a key of the dict up (`pins[domain]`) cannot fail
here since the keys iterated are the dict's own; the default of `dictGet` is
unreachable. -/
def templateLines (pins : List (String × String)) : List String :=
  (dictKeys pins).flatMap (fun domain =>
    let comment := dictGet provider_comments domain domain
    let pin := dictGet pins domain ""
    ["        // " ++ comment,
     "        .add(\"" ++ domain ++ "\", \"" ++ pin ++ "\")",
     "        .add(\"" ++ domain ++
       "\", \"sha256/BACKUP_PIN_HERE\") // Add backup pin",
     ""])

/-- The list of failed domains computed at the end of `main`
(`[d for d, p in pins.items() if p == "FAILED_TO_EXTRACT"]`). -/
def failuresOf (pins : List (String × String)) : List String :=
  (pins.filter (fun p => p.2 == SENTINEL)).map Prod.fst

/-- The final warning block, printed exactly when some extraction failed. -/
def exitPhaseLines (pins : List (String × String)) : List String :=
  if failuresOf pins = [] then []
  else
    ["", RED ++ "WARNING: Failed to extract pins for:" ++ NC] ++
      (failuresOf pins).map (fun d => "  - " ++ d) ++
      ["", "Please check your network connection and try again."]

/-- The fixed header lines printed at the start of `main`. -/
def headLines : List String :=
  [eqBar, "Certificate Pin Extractor for UnaMentis", eqBar, ""]

/-- The fixed lines opening the summary phase. -/
def summaryHeader : List String :=
  [eqBar, "Certificate Pins Summary", eqBar, ""]

/-- The fixed lines printed before the per-provider template entries. -/
def kotlinHead : List String :=
  [eqBar, "Kotlin Code for CertificatePinning.kt", eqBar, "",
   "// Update app/src/main/kotlin/com/unamentis/data/remote/CertificatePinning.kt",
   "// Replace the placeholder pins with these actual pins:", "",
   "val pinner: CertificatePinner by lazy \x7b",
   "    CertificatePinner.Builder()"]

/-- The fixed lines closing the template phase. -/
def kotlinTail : List String :=
  ["        .build()", "\x7d", ""]

/-- The fixed notes phase lines. -/
def notesLines : List String :=
  [eqBar, "Important Notes", eqBar, "",
   "1. ALWAYS add at least 2 pins per domain (current + backup)",
   "2. Get backup pins from provider documentation or cert transparency logs",
   "3. Monitor certificate expiration dates",
   "4. Set up alerts for certificate rotation",
   "5. Update pins BEFORE old certificates expire", "",
   "Certificate Transparency Logs:",
   "  - https://crt.sh",
   "  - https://transparencyreport.google.com/https/certificates", "",
   eqBar, "Done!", eqBar]

/-- Everything `main` prints, in order, as a function of the subprocess
behavior. -/
def mainLines (oracle : String → ToolOutcome) : List String :=
  headLines ++ (extractionPhase oracle).2 ++
    summaryHeader ++ summaryLines (extractionPhase oracle).1 ++ [""] ++
    kotlinHead ++ templateLines (extractionPhase oracle).1 ++ kotlinTail ++
    notesLines ++ exitPhaseLines (extractionPhase oracle).1

/-- The observable result of one run of `main`. -/
structure RunResult where
  output : List String
  pins : List (String × String)
  exitCode : Nat
deriving DecidableEq

/-- `main()` from the script: the full run, producing the printed output, the
results dict and the process exit code (`sys.exit(1)` on any failure, the
implicit exit 0 otherwise). -/
def main (oracle : String → ToolOutcome) : RunResult :=
  { output := mainLines oracle,
    pins := (extractionPhase oracle).1,
    exitCode := if failuresOf (extractionPhase oracle).1 = [] then 0 else 1 }

/-- An oracle under which every domain's invocation times out. -/
def oracleAllTimeout : String → ToolOutcome := fun _ => .timedOut

/-- An oracle under which every domain's invocation succeeds, producing a
fixed base64 digest followed by the pipeline's trailing newline. -/
def oracleAllOk : String → ToolOutcome :=
  fun _ => .completed 0 "47DEQpj8HBSa+/TImW+5JCeuQeRkm5NMpJWZG3hSuFU=\n"

example :
    (extract_pin "api.openai.com"
      (.completed 0 "47DEQpj8HBSa+/TImW+5JCeuQeRkm5NMpJWZG3hSuFU=\n")).pin =
    some "sha256/47DEQpj8HBSa+/TImW+5JCeuQeRkm5NMpJWZG3hSuFU=" := by decide

example : (extract_pin "api.openai.com" (.completed 0 "  \n")).pin = none := by
  decide

example : (extract_pin "x" .timedOut).pin = none := by decide

example :
    (main oracleAllTimeout).exitCode = 1 ∧ (main oracleAllOk).exitCode = 0 := by
  decide

/-! ### Helper lemmas -/

lemma dropWhile_eq_self_of_head (p : Char → Bool) (l : List Char)
    (h : ∀ x ∈ l, p x = false) : l.dropWhile p = l := by
  cases l with
  | nil => rfl
  | cons a t =>
      rw [List.dropWhile_cons, h a (List.mem_cons_self a t)]
      simp

lemma pyStrip_eq_empty_iff (s : String) :
    pyStrip s = "" ↔ ∀ c ∈ s.data, isPyWhitespace c = true := by
  unfold pyStrip
  rw [show ("" : String) = String.mk [] from rfl]
  constructor
  · intro h c hc
    have hdata :
        (((s.data.dropWhile isPyWhitespace).reverse.dropWhile
          isPyWhitespace).reverse) = [] := congrArg String.data h
    rw [List.reverse_eq_nil_iff, List.dropWhile_eq_nil_iff] at hdata
    rcases List.mem_append.mp
        (show c ∈ s.data.takeWhile isPyWhitespace ++
            s.data.dropWhile isPyWhitespace by
          rw [List.takeWhile_append_dropWhile]; exact hc) with h1 | h1
    · exact List.mem_takeWhile_imp h1
    · exact hdata _ (List.mem_reverse.mpr h1)
  · intro h
    have h1 : s.data.dropWhile isPyWhitespace = [] :=
      List.dropWhile_eq_nil_iff.mpr h
    rw [h1]
    rfl

lemma pyStrip_append_newline (b : String) (hne : b ≠ "")
    (hclean : ∀ c ∈ b.data, isPyWhitespace c = false) :
    pyStrip (b ++ "\n") = b := by
  unfold pyStrip
  rw [String.data_append b "\n"]
  have hbne : b.data ≠ [] := by
    intro h0
    apply hne
    cases b with
    | mk l =>
        rw [show l = [] from h0]
  obtain ⟨c, cs, hcs⟩ := List.exists_cons_of_ne_nil hbne
  have hc : isPyWhitespace c = false :=
    hclean c (by rw [hcs]; exact List.mem_cons_self c cs)
  have hdrop1 : List.dropWhile isPyWhitespace (b.data ++ ("\n" : String).data)
      = c :: (cs ++ ['\n']) := by
    rw [show ("\n" : String).data = ['\n'] from rfl, hcs, List.cons_append,
      List.dropWhile_cons, hc]
    simp
  rw [hdrop1]
  have h1 : (c :: (cs ++ ['\n'])).reverse = '\n' :: (c :: cs).reverse := by
    simp
  rw [h1, List.dropWhile_cons]
  rw [show isPyWhitespace '\n' = true from rfl]
  simp only [if_true]
  rw [dropWhile_eq_self_of_head _ _ (fun x hx => by
    apply hclean x
    rw [hcs]
    exact List.mem_reverse.mp hx)]
  rw [List.reverse_reverse, ← hcs]

lemma pin_shape (d : String) (oc : ToolOutcome) (s : String)
    (h : (extract_pin d oc).pin = some s) : ∃ t, s = "sha256/" ++ t := by
  cases oc with
  | completed rc out =>
      simp only [extract_pin] at h
      by_cases hc : rc = 0 ∧ pyStrip out ≠ ""
      · rw [if_pos hc] at h
        exact ⟨pyStrip out, (Option.some.inj h).symm⟩
      · rw [if_neg hc] at h
        exact Option.noConfusion h
  | timedOut => exact Option.noConfusion h
  | raised e => exact Option.noConfusion h

lemma sha256_prefix_ne_sentinel (t : String) : "sha256/" ++ t ≠ SENTINEL := by
  intro h
  have hdata : ("sha256/" ++ t).data = SENTINEL.data := congrArg String.data h
  rw [String.data_append] at hdata
  have h1 : ("sha256/" : String).data = ['s', 'h', 'a', '2', '5', '6', '/'] :=
    rfl
  have h2 : SENTINEL.data =
      ['F', 'A', 'I', 'L', 'E', 'D', '_', 'T', 'O', '_', 'E', 'X', 'T', 'R',
       'A', 'C', 'T'] := rfl
  rw [h1, h2] at hdata
  simp at hdata

lemma some_pin_ne_sentinel (d : String) (oc : ToolOutcome) (s : String)
    (h : (extract_pin d oc).pin = some s) : s ≠ SENTINEL := by
  obtain ⟨t, ht⟩ := pin_shape d oc s h
  rw [ht]
  exact sha256_prefix_ne_sentinel t

lemma recordedPin_beq_sentinel (oracle : String → ToolOutcome) (d : String) :
    (recordedPin oracle d == SENTINEL) =
      ((extract_pin d (oracle d)).pin).isNone := by
  unfold recordedPin
  cases h : (extract_pin d (oracle d)).pin with
  | none => simp
  | some s =>
      simp only [Option.isNone_some]
      exact beq_eq_false_iff_ne.mpr (some_pin_ne_sentinel d (oracle d) s h)

lemma extractionAcc_fst (oracle : String → ToolOutcome)
    (acc : List (String × String) × List String) (prov : String × String) :
    (extractionAcc oracle acc prov).1 =
      dictInsert acc.1 prov.1 (recordedPin oracle prov.1) := by
  unfold extractionAcc extractionStep recordedPin
  cases h : (extract_pin prov.1 (oracle prov.1)).pin <;> simp [h]

lemma dictInsert_of_not (d : List (String × String)) (k v : String)
    (h : dictHasKey d k = false) : dictInsert d k v = d ++ [(k, v)] := by
  simp [dictInsert, h]

lemma dictHasKey_append (d₁ d₂ : List (String × String)) (k : String) :
    dictHasKey (d₁ ++ d₂) k = (dictHasKey d₁ k || dictHasKey d₂ k) := by
  simp [dictHasKey]

lemma fold_pins (oracle : String → ToolOutcome) :
    ∀ (l : List (String × String)) (acc : List (String × String) × List String),
      (∀ p ∈ l, dictHasKey acc.1 p.1 = false) → (l.map Prod.fst).Nodup →
      (l.foldl (extractionAcc oracle) acc).1 =
        acc.1 ++ l.map (fun p => (p.1, recordedPin oracle p.1)) := by
  intro l
  induction l with
  | nil => intro acc _ _; simp
  | cons p t ih =>
      intro acc hdisj hnodup
      rw [List.foldl_cons]
      have hstep : (extractionAcc oracle acc p).1 =
          acc.1 ++ [(p.1, recordedPin oracle p.1)] := by
        rw [extractionAcc_fst,
          dictInsert_of_not _ _ _ (hdisj p (List.mem_cons_self p t))]
      have hnd : (t.map Prod.fst).Nodup := (List.nodup_cons.mp hnodup).2
      have hnotin : p.1 ∉ t.map Prod.fst := (List.nodup_cons.mp hnodup).1
      have := ih (extractionAcc oracle acc p)
        (fun q hq => by
          rw [hstep, dictHasKey_append]
          rw [hdisj q (List.mem_cons_of_mem p hq)]
          simp only [Bool.false_or]
          have hne : p.1 ≠ q.1 := by
            intro heq
            exact hnotin (heq ▸ List.mem_map_of_mem Prod.fst hq)
          simp [dictHasKey, hne]) hnd
      rw [this, hstep]
      simp

lemma extractionPhase_pins (oracle : String → ToolOutcome) :
    (extractionPhase oracle).1 =
      PROVIDERS.map (fun p => (p.1, recordedPin oracle p.1)) := by
  unfold extractionPhase
  rw [fold_pins oracle PROVIDERS ([], []) (fun p _ => rfl) (by decide)]
  rfl

lemma main_pins (oracle : String → ToolOutcome) :
    (main oracle).pins =
      PROVIDERS.map (fun p => (p.1, recordedPin oracle p.1)) :=
  extractionPhase_pins oracle

lemma recordedPin_ne_sentinel_iff (oracle : String → ToolOutcome)
    (d : String) :
    recordedPin oracle d ≠ SENTINEL ↔
      ((extract_pin d (oracle d)).pin).isSome = true := by
  unfold recordedPin
  cases h : (extract_pin d (oracle d)).pin with
  | none => simp
  | some s =>
      simp only [Option.isSome_some]
      exact ⟨fun _ => trivial, fun _ => some_pin_ne_sentinel d (oracle d) s h⟩

/-! ### Claim theorems -/

/-- C10: when the tool invocation exits with status 0, `extract_pin` succeeds
iff the tool's stdout contains at least one non-whitespace character, and on
success the pin is `"sha256/"` followed by the stdout with leading and
trailing whitespace stripped (whitespace-only output counts as the
empty-output failure). -/
theorem extract_pin_zero_exit_spec (d out : String) :
    (((extract_pin d (.completed 0 out)).pin).isSome = true ↔
      ∃ c ∈ out.data, isPyWhitespace c = false) ∧
    (extract_pin d (.completed 0 out)).pin =
      (if pyStrip out = "" then none else some ("sha256/" ++ pyStrip out)) := by
  have h2 : (extract_pin d (.completed 0 out)).pin =
      (if pyStrip out = "" then none
       else some ("sha256/" ++ pyStrip out)) := by
    simp only [extract_pin]
    by_cases he : pyStrip out = "" <;> simp [he]
  refine ⟨?_, h2⟩
  rw [h2]
  constructor
  · intro hs
    by_contra hex
    push_neg at hex
    have hall : ∀ c ∈ out.data, isPyWhitespace c = true := by
      intro c hc
      cases hb : isPyWhitespace c with
      | false => exact absurd hb (hex c hc)
      | true => rfl
    rw [if_pos ((pyStrip_eq_empty_iff out).mpr hall)] at hs
    simp at hs
  · rintro ⟨c, hc, hw⟩
    have hne : pyStrip out ≠ "" := by
      intro he
      have := (pyStrip_eq_empty_iff out).mp he c hc
      rw [hw] at this
      exact Bool.noConfusion this
    rw [if_neg hne]
    rfl

/-- C2: every failure behavior of the tool invocation (timeout, any other
exception, nonzero exit status, empty or whitespace-only output) makes
`extract_pin` return the single failure signal `none` (recorded by the caller
as the sentinel); `extract_pin` is a total function, so no exception escapes
the extractor boundary. -/
theorem extract_pin_failures_return_none (d e out : String) (rc : Int) :
    (extract_pin d .timedOut).pin = none ∧
    (extract_pin d (.raised e)).pin = none ∧
    ((rc ≠ 0 ∨ pyStrip out = "") →
      (extract_pin d (.completed rc out)).pin = none) := by
  refine ⟨rfl, rfl, ?_⟩
  intro h
  simp only [extract_pin]
  rcases h with h | h
  · rw [if_neg (fun hc => h hc.1)]
  · rw [if_neg (fun hc => hc.2 h)]

/-- Witness for C2 at concrete failure inputs. -/
theorem extract_pin_failures_return_none_witness :
    (extract_pin "api.groq.com" .timedOut).pin = none ∧
    (extract_pin "api.groq.com" (.raised "boom")).pin = none ∧
    (extract_pin "api.groq.com" (.completed 1 "x")).pin = none := by
  obtain ⟨h1, h2, h3⟩ :=
    extract_pin_failures_return_none "api.groq.com" "boom" "x" 1
  exact ⟨h1, h2, h3 (Or.inl (by decide))⟩

/-- C7: `extract_pin` prints exactly one diagnostic line in the timeout case
and in the generic unexpected-error case, and prints nothing whenever the
tool invocation completed — in particular the nonzero-exit and empty-output
failures are silent at the extractor layer. -/
theorem extract_pin_printed_spec (d e out : String) (rc : Int) :
    (extract_pin d .timedOut).printed =
      [RED ++ "  ✗ Timeout connecting to " ++ d ++ NC] ∧
    (extract_pin d (.raised e)).printed =
      [RED ++ "  ✗ Error: " ++ e ++ NC] ∧
    (extract_pin d (.completed rc out)).printed = [] := by
  refine ⟨rfl, rfl, ?_⟩
  simp only [extract_pin]
  by_cases hc : rc = 0 ∧ pyStrip out ≠ "" <;> simp [hc]

/-- C1 counterexample: the tool exits 0 with the non-empty stdout
`"AAAA\n"` (a base64 digest plus the pipeline's trailing newline), yet the
returned pin is not `"sha256/"` followed by that stdout — the trailing
newline is stripped. -/
theorem extract_pin_not_raw_stdout :
    (extract_pin "api.openai.com" (.completed 0 "AAAA\n")).pin =
      some "sha256/AAAA" ∧
    "sha256/AAAA" ≠ "sha256/" ++ "AAAA\n" := by decide

/-- C1 amended: when the tool exits 0 and its stdout contains a
non-whitespace character, the produced pin is `"sha256/"` followed by the
stdout stripped of leading and trailing whitespace; in particular, when the
stdout is a non-empty whitespace-free digest string followed by the
pipeline's trailing newline, the pin is exactly `"sha256/" + digest` — the
deterministic round-trip value `"sha256/" + base64(sha256(der(pubkey)))`. -/
theorem extract_pin_roundtrip (d b out : String) (hne : b ≠ "")
    (hclean : ∀ c ∈ b.data, isPyWhitespace c = false)
    (hout : pyStrip out ≠ "") :
    (extract_pin d (.completed 0 (b ++ "\n"))).pin =
      some ("sha256/" ++ b) ∧
    (extract_pin d (.completed 0 out)).pin =
      some ("sha256/" ++ pyStrip out) := by
  constructor
  · simp only [extract_pin]
    rw [pyStrip_append_newline b hne hclean]
    simp [hne]
  · simp only [extract_pin]
    simp [hout]

/-- Witness for the amended C1 at a concrete known digest and a concrete
whitespace-padded output. -/
theorem extract_pin_roundtrip_witness :
    (extract_pin "api.openai.com"
      (.completed 0
        ("47DEQpj8HBSa+/TImW+5JCeuQeRkm5NMpJWZG3hSuFU=" ++ "\n"))).pin =
      some ("sha256/" ++ "47DEQpj8HBSa+/TImW+5JCeuQeRkm5NMpJWZG3hSuFU=") ∧
    (extract_pin "api.openai.com" (.completed 0 " x \n")).pin =
      some ("sha256/" ++ pyStrip " x \n") :=
  extract_pin_roundtrip "api.openai.com"
    "47DEQpj8HBSa+/TImW+5JCeuQeRkm5NMpJWZG3hSuFU=" " x \n" (by decide)
    (by decide) (by decide)

/-- C9: every successful pin starts with `"sha256/"` and therefore never
equals the sentinel, so the comparison against `"FAILED_TO_EXTRACT"` used by
the summary and exit phases classifies every entry of the results mapping
unambiguously: an entry differs from the sentinel iff its extraction
succeeded. -/
theorem successful_pin_classification (d : String) (oc : ToolOutcome)
    (s : String) (h : (extract_pin d oc).pin = some s)
    (oracle : String → ToolOutcome) (q : String × String)
    (hq : q ∈ (main oracle).pins) :
    "sha256/".data <+: s.data ∧ s ≠ SENTINEL ∧
    (q.2 ≠ SENTINEL ↔
      ((extract_pin q.1 (oracle q.1)).pin).isSome = true) := by
  obtain ⟨t, ht⟩ := pin_shape d oc s h
  refine ⟨?_, some_pin_ne_sentinel d oc s h, ?_⟩
  · rw [ht, String.data_append]
    exact List.prefix_append _ _
  · rw [main_pins] at hq
    obtain ⟨p, _, hpq⟩ := List.mem_map.mp hq
    rw [← hpq]
    exact recordedPin_ne_sentinel_iff oracle p.1

/-- Witness for C9 at a concrete successful extraction and a concrete entry
of a run's results mapping. -/
theorem successful_pin_classification_witness :
    "sha256/".data <+:
      ("sha256/47DEQpj8HBSa+/TImW+5JCeuQeRkm5NMpJWZG3hSuFU=" : String).data ∧
    ("sha256/47DEQpj8HBSa+/TImW+5JCeuQeRkm5NMpJWZG3hSuFU=" : String) ≠
      SENTINEL ∧
    ((("api.openai.com",
        "sha256/47DEQpj8HBSa+/TImW+5JCeuQeRkm5NMpJWZG3hSuFU=") :
          String × String).2 ≠ SENTINEL ↔
      ((extract_pin "api.openai.com" (oracleAllOk "api.openai.com")).pin).isSome
        = true) :=
  successful_pin_classification "api.openai.com"
    (.completed 0 "47DEQpj8HBSa+/TImW+5JCeuQeRkm5NMpJWZG3hSuFU=\n")
    "sha256/47DEQpj8HBSa+/TImW+5JCeuQeRkm5NMpJWZG3hSuFU=" (by decide)
    oracleAllOk
    ("api.openai.com", "sha256/47DEQpj8HBSa+/TImW+5JCeuQeRkm5NMpJWZG3hSuFU=")
    (by decide)

/-- C4: after the extraction phase of every run, the results mapping has
exactly one entry per provider — six entries keyed by the six fixed domains,
inserted in the declared provider-list order. -/
theorem results_mapping_keys (oracle : String → ToolOutcome) :
    dictKeys (main oracle).pins =
      ["api.deepgram.com", "api.assemblyai.com", "api.groq.com",
       "api.elevenlabs.io", "api.openai.com", "api.anthropic.com"] ∧
    dictKeys (main oracle).pins = PROVIDERS.map Prod.fst ∧
    (main oracle).pins.length = 6 := by
  refine ⟨?_, ?_, ?_⟩ <;>
    simp [main_pins, dictKeys, List.map_map, PROVIDERS]

/-- C6: the extraction phase never terminates early — every provider of the
list has exactly one recorded entry, and that entry depends only on the
provider's own tool outcome (pin on success, sentinel on failure); in
particular a timed-out domain is recorded as the sentinel while every other
domain's entry is still determined by its own outcome. -/
theorem extraction_no_early_termination (oracle : String → ToolOutcome)
    (d n : String) (hmem : (d, n) ∈ PROVIDERS) :
    (main oracle).pins.find? (fun p => p.1 == d) =
      some (d, recordedPin oracle d) ∧
    (oracle d = .timedOut → recordedPin oracle d = SENTINEL) := by
  constructor
  · rw [main_pins]
    simp only [PROVIDERS, List.mem_cons, List.not_mem_nil, or_false] at hmem
    rcases hmem with h | h | h | h | h | h <;>
      (rw [Prod.mk.injEq] at h; rw [h.1]; simp [PROVIDERS])
  · intro ht
    unfold recordedPin
    rw [ht]
    rfl

/-- Witness for C6: with every invocation timing out, the entry recorded for
`api.groq.com` is the sentinel. -/
theorem extraction_no_early_termination_witness :
    (main oracleAllTimeout).pins.find? (fun p => p.1 == "api.groq.com") =
      some ("api.groq.com", recordedPin oracleAllTimeout "api.groq.com") ∧
    (oracleAllTimeout "api.groq.com" = .timedOut →
      recordedPin oracleAllTimeout "api.groq.com" = SENTINEL) :=
  extraction_no_early_termination oracleAllTimeout "api.groq.com" "Groq (STT)"
    (by decide)

/-- C5: the template phase is exactly one comment line, one
`.add(domain, pin)` line, one backup-placeholder `.add` line and one blank
line per provider, in provider order, unconditionally; a failed domain's
`.add` line embeds the literal sentinel in place of a pin (that is what
`recordedPin` equals on failure).  The whole block occurs verbatim inside
the run's printed output. -/
theorem template_lines_spec (oracle : String → ToolOutcome) :
    templateLines (main oracle).pins =
      PROVIDERS.flatMap (fun p =>
        ["        // " ++ p.2,
         "        .add(\"" ++ p.1 ++ "\", \"" ++ recordedPin oracle p.1 ++
           "\")",
         "        .add(\"" ++ p.1 ++
           "\", \"sha256/BACKUP_PIN_HERE\") // Add backup pin",
         ""]) ∧
    List.IsInfix (templateLines (main oracle).pins) (main oracle).output := by
  constructor
  · rw [main_pins]
    simp [templateLines, dictKeys, dictGet, provider_comments, PROVIDERS]
  · refine ⟨headLines ++ (extractionPhase oracle).2 ++ summaryHeader ++
      summaryLines (extractionPhase oracle).1 ++ [""] ++ kotlinHead,
      kotlinTail ++ notesLines ++
        exitPhaseLines (extractionPhase oracle).1, ?_⟩
    show _ = (main oracle).output
    simp only [main, mainLines]
    simp [List.append_assoc]

/-- C3: the process exit code is 0 iff all six extractions succeeded (and is
1 otherwise); the failed-domain list computed at the end contains exactly
the domains whose extraction failed, in provider order, and when it is
non-empty the printed output contains the warning block listing exactly
those domains. -/
theorem exit_code_spec (oracle : String → ToolOutcome) :
    ((main oracle).exitCode = 0 ↔
      ∀ p ∈ PROVIDERS,
        ((extract_pin p.1 (oracle p.1)).pin).isSome = true) ∧
    ((main oracle).exitCode = 0 ∨ (main oracle).exitCode = 1) ∧
    failuresOf (main oracle).pins =
      (PROVIDERS.map Prod.fst).filter
        (fun d => ((extract_pin d (oracle d)).pin).isNone) ∧
    (failuresOf (main oracle).pins ≠ [] →
      List.IsInfix
        (["", RED ++ "WARNING: Failed to extract pins for:" ++ NC] ++
          (failuresOf (main oracle).pins).map (fun d => "  - " ++ d) ++
          ["", "Please check your network connection and try again."])
        (main oracle).output) := by
  have hfilter : ∀ l : List (String × String),
      ((l.map (fun p => (p.1, recordedPin oracle p.1))).filter
        (fun p => p.2 == SENTINEL)).map Prod.fst =
      (l.map Prod.fst).filter
        (fun d => ((extract_pin d (oracle d)).pin).isNone) := by
    intro l
    induction l with
    | nil => rfl
    | cons p t ih =>
        simp only [List.map_cons, List.filter_cons]
        rw [recordedPin_beq_sentinel oracle p.1]
        cases h : ((extract_pin p.1 (oracle p.1)).pin).isNone <;>
          simp [h, ih]
  have hfail : failuresOf (main oracle).pins =
      (PROVIDERS.map Prod.fst).filter
        (fun d => ((extract_pin d (oracle d)).pin).isNone) := by
    rw [main_pins]
    unfold failuresOf
    exact hfilter PROVIDERS
  have hcode : (main oracle).exitCode =
      (if failuresOf (main oracle).pins = [] then 0 else 1) := rfl
  refine ⟨?_, ?_, hfail, ?_⟩
  · rw [hcode]
    constructor
    · intro h0 p hp
      have hnil : failuresOf (main oracle).pins = [] := by
        by_contra hne
        rw [if_neg hne] at h0
        exact Nat.noConfusion h0
      rw [hfail] at hnil
      have hp1 := List.filter_eq_nil_iff.mp hnil p.1
        (List.mem_map_of_mem Prod.fst hp)
      cases hopt : (extract_pin p.1 (oracle p.1)).pin with
      | none => exact absurd (by rw [hopt]; rfl) hp1
      | some s => rfl
    · intro hall
      rw [if_pos ?_]
      rw [hfail]
      apply List.filter_eq_nil_iff.mpr
      intro d hd
      obtain ⟨p, hp, hpd⟩ := List.mem_map.mp hd
      have := hall p hp
      rw [← hpd]
      cases hopt : (extract_pin p.1 (oracle p.1)).pin with
      | none => rw [hopt] at this; exact absurd this (by simp)
      | some s => simp
  · rw [hcode]
    by_cases hf : failuresOf (main oracle).pins = []
    · exact Or.inl (by rw [if_pos hf])
    · exact Or.inr (by rw [if_neg hf])
  · intro hf
    refine ⟨headLines ++ (extractionPhase oracle).2 ++ summaryHeader ++
      summaryLines (extractionPhase oracle).1 ++ [""] ++ kotlinHead ++
      templateLines (extractionPhase oracle).1 ++ kotlinTail ++ notesLines,
      [], ?_⟩
    show _ = (main oracle).output
    simp only [main, mainLines]
    rw [show (extractionPhase oracle).1 = (main oracle).pins from rfl]
    rw [show exitPhaseLines (main oracle).pins =
        ["", RED ++ "WARNING: Failed to extract pins for:" ++ NC] ++
          (failuresOf (main oracle).pins).map (fun d => "  - " ++ d) ++
          ["", "Please check your network connection and try again."] from by
      unfold exitPhaseLines
      rw [if_neg hf]]
    simp [List.append_assoc]

/-- Witness for C3: with every invocation timing out, the exit code is 1 and
the warning block naming all six domains occurs in the output. -/
theorem exit_code_spec_witness :
    (main oracleAllTimeout).exitCode = 1 ∧
    List.IsInfix
      (["", RED ++ "WARNING: Failed to extract pins for:" ++ NC] ++
        (failuresOf (main oracleAllTimeout).pins).map (fun d => "  - " ++ d) ++
        ["", "Please check your network connection and try again."])
      (main oracleAllTimeout).output := by
  obtain ⟨h1, h2, _, h4⟩ := exit_code_spec oracleAllTimeout
  refine ⟨?_, h4 (by decide)⟩
  rcases h2 with h | h
  · exfalso
    have := h1.mp h ("api.deepgram.com", "Deepgram (STT + TTS)") (by decide)
    exact absurd this (by decide)
  · exact h

/-- Congruence of one extraction iteration in the oracle. -/
lemma extractionAcc_congr (o1 o2 : String → ToolOutcome)
    (acc : List (String × String) × List String) (p : String × String)
    (h : o1 p.1 = o2 p.1) :
    extractionAcc o1 acc p = extractionAcc o2 acc p := by
  simp only [extractionAcc, extractionStep]
  rw [h]

/-- Congruence of the extraction fold in the oracle. -/
lemma foldl_extraction_congr (o1 o2 : String → ToolOutcome) :
    ∀ (l : List (String × String)), (∀ p ∈ l, o1 p.1 = o2 p.1) →
      ∀ acc, l.foldl (extractionAcc o1) acc = l.foldl (extractionAcc o2) acc := by
  intro l
  induction l with
  | nil => intro _ acc; rfl
  | cons p t ih =>
      intro h acc
      rw [List.foldl_cons, List.foldl_cons,
        extractionAcc_congr o1 o2 acc p (h p (List.mem_cons_self p t))]
      exact ih (fun q hq => h q (List.mem_cons_of_mem p hq)) _

/-- C8: the run is deterministic — the whole observable result (printed
output, results mapping, exit code) is a function of the subprocess behavior
on the six provider domains alone, so two runs against the same (mocked)
extractor behavior are identical. -/
theorem run_deterministic (o1 o2 : String → ToolOutcome)
    (h : ∀ p ∈ PROVIDERS, o1 p.1 = o2 p.1) : main o1 = main o2 := by
  have hphase : extractionPhase o1 = extractionPhase o2 :=
    foldl_extraction_congr o1 o2 PROVIDERS h ([], [])
  simp [main, mainLines, hphase]

/-- Witness for C8: two runs against the same all-succeed behavior agree. -/
theorem run_deterministic_witness : main oracleAllOk = main oracleAllOk :=
  run_deterministic oracleAllOk oracleAllOk (fun _ _ => rfl)

end ExtractPins
